import Mathlib

/-!
Verification of the seg-toolbox probe harness: a shallow embedding in Lean 4
of the Python sources `src/main.py`, `src/tests/intruder.py`,
`src/tests/cookie_verification.py` and `src/utils/results.py`, together with
theorems settling the specified behavioural properties.

Python strings are embedded as `List Char` (named `Str`): every string
operation the code uses (strip, lower, split, ...) is re-implemented here by
structural recursion so that concrete runs are kernel-evaluable. Python
floats (timeouts, latencies) are embedded as rationals; wall-clock readings
and network responses, being ambient effects, enter as explicit parameters.
-/

/-! ## String model: Python `str` as `List Char` -/

/-- Python strings are modelled as lists of characters. -/
abbrev Str := List Char

/-- Coerce a Lean string literal into the model. -/
def str (s : String) : Str := s.data

/-- Python `str.lstrip()`: drop leading whitespace. -/
def strTrimLeft (s : Str) : Str := s.dropWhile Char.isWhitespace

/-- Python `str.rstrip()`: drop trailing whitespace. -/
def strTrimRight (s : Str) : Str := (s.reverse.dropWhile Char.isWhitespace).reverse

/-- Python `str.strip()`. -/
def strTrim (s : Str) : Str := strTrimRight (strTrimLeft s)

/-- Python `str.lower()` (ASCII, as the code only compares ASCII names). -/
def strToLower (s : Str) : Str := s.map Char.toLower

/-- Python `str.upper()`. -/
def strToUpper (s : Str) : Str := s.map Char.toUpper

/-- Python `str.rstrip(chars)` for an explicit character set. -/
def strRStripSet (bad : List Char) (s : Str) : Str :=
  (s.reverse.dropWhile (fun c => bad.contains c)).reverse

/-- Worker for `splitOnChar`; `acc` holds the current segment reversed. -/
def splitOnCharGo (c : Char) : Str → Str → List Str
  | [], acc => [acc.reverse]
  | d :: rest, acc =>
    if d = c then acc.reverse :: splitOnCharGo c rest []
    else splitOnCharGo c rest (d :: acc)

/-- Python `str.split(sep)` for a one-character separator (used for `;`, `,`). -/
def splitOnChar (c : Char) (s : Str) : List Str := splitOnCharGo c s []

/-- Python `str.split(sep, 1)`: the text before the first occurrence of the
separator character and the text after it (the whole string and `[]` when
the separator is absent; callers guard on presence). -/
def splitFirst (c : Char) : Str → Str × Str
  | [] => ([], [])
  | d :: rest =>
    if d = c then ([], rest)
    else
      let p := splitFirst c rest
      (d :: p.1, p.2)

/-- Python `str.split()` with no argument: split on whitespace runs,
discarding empty tokens. -/
def splitWs (s : Str) : List Str :=
  (s.splitOnP Char.isWhitespace).filter (fun t => t ≠ [])

/-- Worker for `pySplitlines`. -/
def splitLinesGo : Str → Str → List Str
  | [], acc => [acc.reverse]
  | '\r' :: '\n' :: rest, acc =>
    acc.reverse :: (if rest = [] then [] else splitLinesGo rest [])
  | '\n' :: rest, acc =>
    acc.reverse :: (if rest = [] then [] else splitLinesGo rest [])
  | '\r' :: rest, acc =>
    acc.reverse :: (if rest = [] then [] else splitLinesGo rest [])
  | d :: rest, acc => splitLinesGo rest (d :: acc)

/-- Python `str.splitlines()` restricted to the `\n`, `\r\n` and `\r`
terminators (the code only ever sees pasted text and HTTP header values):
no trailing empty line is produced for a trailing terminator, and the empty
string yields no lines. -/
def pySplitlines (s : Str) : List Str :=
  if s = [] then [] else splitLinesGo s []

/-- Does the string contain the given substring? (Python `sub in s`.) -/
def strContainsSub (sub : Str) : Str → Bool
  | [] => sub.isPrefixOf []
  | c :: rest => sub.isPrefixOf (c :: rest) || strContainsSub sub rest

/-- Lexicographic `<=` on strings by character code, as Python compares
`str` values for `sorted`. -/
def lexLe (a b : Str) : Bool :=
  match a, b with
  | [], _ => true
  | _ :: _, [] => false
  | c :: cs, d :: ds => if c = d then lexLe cs ds else decide (c < d)

/-- Insert into a sorted list, keeping order (helper for `pySorted`). -/
def insertSorted (x : Str) (l : List Str) : List Str :=
  match l with
  | [] => [x]
  | y :: ys => if lexLe x y then x :: y :: ys else y :: insertSorted x ys

/-- Python `sorted()` on a list of strings (insertion sort; ascending
lexicographic order by character code). -/
def pySorted (l : List Str) : List Str := l.foldr insertSorted []

/-- Python `sep.join(parts)`. -/
def strJoin (sep : Str) (parts : List Str) : Str :=
  (parts.intersperse sep).flatten

/-- Parse an optional decimal sign. -/
def parseSign : Str → Bool × Str
  | '-' :: rest => (true, rest)
  | '+' :: rest => (false, rest)
  | s => (false, s)

/-- Digits to a natural number (`none` on the empty string or a non-digit). -/
def parseDigits (s : Str) : Option Nat :=
  if s = [] then none
  else if s.all Char.isDigit then
    some (s.foldl (fun n c => 10 * n + (c.toNat - '0'.toNat)) 0)
  else none

/-- Python `int(s)`: strip whitespace, optional sign, decimal digits;
`none` models the `ValueError` the callers catch. -/
def pyParseInt (s : Str) : Option Int :=
  let t := strTrim s
  let sg := parseSign t
  match parseDigits sg.2 with
  | some n => some (if sg.1 then -(n : Int) else (n : Int))
  | none => none

/-- Python `float(s)` restricted to plain decimal literals
(`digits` or `digits.digits`, optional sign): strip whitespace, parse;
`none` models the `ValueError` the callers catch. -/
def pyParseFloat (s : Str) : Option ℚ :=
  let t := strTrim s
  let sg := parseSign t
  let body := sg.2
  let mk : ℚ → Option ℚ := fun q => some (if sg.1 then -q else q)
  match splitOnChar '.' body with
  | [ip] =>
    match parseDigits ip with
    | some n => mk (n : ℚ)
    | none => none
  | [ip, fp] =>
    match parseDigits ip, parseDigits fp with
    | some n, some f => mk ((n : ℚ) + (f : ℚ) / ((10 : ℚ) ^ fp.length))
    | _, _ => none
  | _ => none

/-- Python `round(x, 4)` on our rational model of floats. -/
def round4 (q : ℚ) : ℚ := (round (q * 10000) : ℚ) / 10000

/-- Python `round(x, 3)` on our rational model of floats. -/
def round3 (q : ℚ) : ℚ := (round (q * 1000) : ℚ) / 1000

/-- Python `inputs.get(key) or default` for string inputs: `None` and the
empty string both fall back to the default. -/
def pyOrStr (o : Option Str) (d : Str) : Str :=
  match o with
  | none => d
  | some s => if s = [] then d else s

/-! ## Association lists: Python `dict` preserving insertion order -/

/-- Lookup by key, first match (Python `d.get(k)` / `k in d`). -/
def alistGet {α : Type} : List (Str × α) → Str → Option α
  | [], _ => none
  | (k, v) :: rest, key => if k = key then some v else alistGet rest key

/-- Assignment `d[k] = v`: update the first matching key in place, else
append at the end — exactly Python's insertion-order semantics. -/
def alistSet {α : Type} : List (Str × α) → Str → α → List (Str × α)
  | [], key, v => [(key, v)]
  | (k, w) :: rest, key, v =>
    if k = key then (k, v) :: rest else (k, w) :: alistSet rest key v

/-- The keys of the mapping, in insertion order (Python `d.keys()`). -/
def keysOf {α : Type} (d : List (Str × α)) : List Str := d.map Prod.fst

/-- JSON-style values: the open-ended result mappings the probes return. -/
inductive Value where
  | null
  | b (x : Bool)
  | i (x : Int)
  | q (x : ℚ)
  | s (x : Str)
  | arr (xs : List Value)
  | obj (xs : List (Str × Value))

/-- A probe result: a Python dict from string keys to JSON-style values. -/
abbrev Dict := List (Str × Value)

theorem alistGet_alistSet_self {α : Type} (d : List (Str × α)) (k : Str) (v : α) :
    alistGet (alistSet d k v) k = some v := by
  induction d with
  | nil => simp [alistGet, alistSet]
  | cons hd tl ih =>
    obtain ⟨k', w⟩ := hd
    by_cases h : k' = k
    · simp [alistGet, alistSet, h]
    · simp [alistGet, alistSet, h, ih]

theorem alistGet_alistSet_ne {α : Type} (d : List (Str × α)) (k k' : Str) (v : α)
    (h : k' ≠ k) : alistGet (alistSet d k v) k' = alistGet d k' := by
  have h' : ¬ (k = k') := fun hh => h hh.symm
  induction d with
  | nil => simp [alistGet, alistSet, h']
  | cons hd tl ih =>
    obtain ⟨k₀, w⟩ := hd
    by_cases h0 : k₀ = k
    · subst h0
      simp [alistGet, alistSet, h']
    · simp only [alistSet, if_neg h0, alistGet]
      by_cases h1 : k₀ = k'
      · simp [h1]
      · simp [h1, ih]

theorem mem_keysOf_alistSet {α : Type} (d : List (Str × α)) (k k' : Str) (v : α) :
    k' ∈ keysOf (alistSet d k v) ↔ k' ∈ keysOf d ∨ k' = k := by
  induction d with
  | nil => simp [alistSet, keysOf, eq_comm]
  | cons hd tl ih =>
    obtain ⟨k₀, w⟩ := hd
    simp only [alistSet]
    by_cases h0 : k₀ = k
    · simp only [if_pos h0, keysOf, List.map_cons, List.mem_cons]
      subst h0
      tauto
    · simp only [if_neg h0, keysOf, List.map_cons, List.mem_cons]
      have ih' := ih
      simp only [keysOf] at ih'
      rw [ih']
      tauto

-- sanity checks of the string model (evaluable in the kernel)
example : strTrim (str "  a b ") = str "a b" := by decide
example : strToUpper (str "get") = str "GET" := by decide
example : splitOnChar ';' (str "a;b; c") = [str "a", str "b", str " c"] := by decide
example : splitWs (str "GET /x HTTP/1.1") = [str "GET", str "/x", str "HTTP/1.1"] := by decide
example : pySplitlines (str "a\nb\n") = [str "a", str "b"] := by decide
example : strContainsSub (str "HTTP/") (str "x:HTTP/1.1") = true := by decide
example : pySorted [str "b", str "a", str "ab"] = [str "a", str "ab", str "b"] := by decide
example : pyParseInt (str " 42 ") = some 42 := by decide
example : pyParseInt (str "4x") = none := by decide
example : splitFirst ':' (str "GET x:HTTP/1.1") = (str "GET x", str "HTTP/1.1") := by decide
example : strRStripSet [';', ' '] (str "a; ") = str "a" := by decide

/-! ## `src/tests/intruder.py`: the Concurrent Request Runner -/

/-- Request headers: a Python dict from header name to value. -/
abbrev HeaderDict := List (Str × Str)

/-- The HTTP method tokens recognised as starting a request line. -/
def httpMethodTokens : List Str :=
  [str "GET", str "POST", str "PUT", str "DELETE", str "HEAD",
   str "OPTIONS", str "PATCH"]

/-- The request-line test of `IntruderTest._parse_headers`:
`len(parts0) >= 3 and parts0[0].upper() in (methods) and "HTTP/" in parts0[-1].upper()`. -/
def isRequestLine (line : Str) : Bool :=
  let parts0 := splitWs line
  decide (parts0.length ≥ 3)
    && httpMethodTokens.contains (strToUpper (parts0.headD []))
    && strContainsSub (str "HTTP/") (strToUpper (parts0.getLastD []))

/-- One iteration of the `for line in raw.splitlines()` loop of
`IntruderTest._parse_headers`. -/
def headerStep (headers : HeaderDict) (line0 : Str) : HeaderDict :=
  let line := strTrim line0
  if line = [] then headers
  else if isRequestLine line then headers
  else if ¬ line.contains ':' then headers
  else
    let kv := splitFirst ':' line
    let key := strTrim kv.1
    let value := strTrimLeft kv.2
    match alistGet headers key with
    | some old =>
      if strToLower key = str "cookie" then
        alistSet headers key (strRStripSet [';', ' '] old ++ str "; " ++ value)
      else
        alistSet headers key (old ++ str ", " ++ value)
    | none => headers ++ [(key, value)]

/-- `IntruderTest._parse_headers`: the pasted header block to a header dict. -/
def parse_headers (raw : Str) : HeaderDict :=
  if raw = [] then [] else (pySplitlines raw).foldl headerStep []

/-- The outcome of the networking call one worker makes, with its elapsed
time: the ambient effect `requests` performs, passed in as an oracle. -/
inductive NetResult where
  | success (status : Nat) (reason : Str) (elapsed : ℚ)
  | failure (error : Str) (elapsed : ℚ)

/-- One Request Outcome dict built by `IntruderTest._worker_request`. -/
structure Outcome where
  index : Nat
  ok : Bool
  status_code : Option Nat
  reason : Option Str
  error : Option Str
  elapsed_seconds : ℚ
deriving DecidableEq

/-- `IntruderTest._worker_request`: each worker owns its session, issues one
request (GET, POST or the generic fallback all issue the same call in this
model) and catches every exception into a failed outcome. -/
def worker_request (url method : Str) (headers : HeaderDict) (timeout : ℚ)
    (net : Nat → NetResult) (index : Nat) : Outcome :=
  let r := if method = str "GET" then net index
           else if method = str "POST" then net index
           else net index
  match r with
  | .success st rs el =>
    { index := index, ok := true, status_code := some st, reason := some rs,
      error := none, elapsed_seconds := round4 el }
  | .failure er el =>
    { index := index, ok := false, status_code := none, reason := none,
      error := some er, elapsed_seconds := round4 el }

/-- `str(res.get("status_code"))`: the key of the status histogram. -/
def statusKey (c : Option Nat) : Str :=
  match c with
  | some n => str (toString n)
  | none => str "None"

/-- `status_counter[code_key] = status_counter.get(code_key, 0) + 1`. -/
def bumpCounter (sc : List (Str × Nat)) (k : Str) : List (Str × Nat) :=
  match alistGet sc k with
  | some n => alistSet sc k (n + 1)
  | none => sc ++ [(k, 1)]

/-- The mutable aggregation state of `IntruderTest.run`: collected results,
status-code histogram, error counter, latencies. -/
abbrev CollectState := List Outcome × List (Str × Nat) × Nat × List ℚ

/-- The body of the `for fut in as_completed(futures)` loop, the critical
section under `_LOCK`: append the outcome, bump the histogram or the error
counter, record the latency. -/
def collectStep (acc : CollectState) (res : Outcome) : CollectState :=
  let results := acc.1 ++ [res]
  let sc := if res.ok then bumpCounter acc.2.1 (statusKey res.status_code) else acc.2.1
  let errors := if res.ok then acc.2.2.1 else acc.2.2.1 + 1
  let lats := acc.2.2.2 ++ [res.elapsed_seconds]
  (results, sc, errors, lats)

/-- The whole collection loop over the completed outcomes. -/
def collect (outs : List Outcome) : CollectState :=
  outs.foldl collectStep ([], [], 0, [])

/-- `statistics.mean` on the rational model. -/
def pyMean (l : List ℚ) : ℚ := l.sum / (l.length : ℚ)

/-- Insertion into a sorted rational list (helper for `sortRat`). -/
def insertRat (x : ℚ) (l : List ℚ) : List ℚ :=
  match l with
  | [] => [x]
  | y :: ys => if x ≤ y then x :: y :: ys else y :: insertRat x ys

/-- `sorted()` on latencies. -/
def sortRat (l : List ℚ) : List ℚ := l.foldr insertRat []

/-- `statistics.median`: middle element of the sorted list, or the average
of the two middle elements for an even length. -/
def pyMedian (l : List ℚ) : ℚ :=
  let s := sortRat l
  let n := s.length
  if n % 2 = 1 then s.getD (n / 2) 0
  else (s.getD (n / 2 - 1) 0 + s.getD (n / 2) 0) / 2

/-- The 95th-percentile index: `min(len-1, int(len*0.95))`. -/
def idx95 (n : Nat) : Nat := min (n - 1) ((95 * n) / 100)

/-- The Run Summary dict of `IntruderTest.run`. -/
structure RunSummary where
  target : Str
  method : Str
  total_requested : Nat
  concurrency : Nat
  timeout_seconds : ℚ
  wall_time_seconds : ℚ
  requests_sent : Nat
  successes : Nat
  failures : Nat
  errors : Nat
  status_counts : List (Str × Nat)
  avg_latency_seconds : Option ℚ
  p50_latency_seconds : Option ℚ
  p95_latency_seconds : Option ℚ
  details_sample : List Outcome

/-- The operator's raw answers to the five prompts of `IntruderTest.requires`
(absent key = `None`). -/
structure IntruderInputs where
  target : Option Str
  method : Option Str
  total : Option Str
  concurrency : Option Str
  timeout : Option Str

/-- `(inputs.get("target") or "").strip()`. -/
def normTarget (i : IntruderInputs) : Str := strTrim (pyOrStr i.target [])

/-- `(inputs.get("method") or "GET").strip().upper()`. -/
def normMethod (i : IntruderInputs) : Str :=
  strToUpper (strTrim (pyOrStr i.method (str "GET")))

/-- `int(inputs.get(key) or 1)` with parse failure defaulting to 1, then
clamped up to a minimum of 1 — the coercion used for `total` and
`concurrency`. -/
def coerceCount (o : Option Str) : Nat :=
  let t : Int :=
    match o with
    | none => 1
    | some s => if s = [] then 1 else (pyParseInt s).getD 1
  if t < 1 then 1 else t.toNat

/-- `float(inputs.get("timeout") or 5.0)` with parse failure defaulting to
5.0, then replaced by 5.0 when not positive. -/
def coerceTimeout (o : Option Str) : ℚ :=
  let t : ℚ :=
    match o with
    | none => 5
    | some s => if s = [] then 5 else (pyParseFloat s).getD 5
  if t ≤ 0 then 5 else t

/-- The list of outcomes in completion order: the batch submits indices
`0..total-1`, and `order` (a permutation of them, supplied by the scheduler)
is the order `as_completed` yields them in. -/
def runCollected (i : IntruderInputs) (rawHeaders : Str) (net : Nat → NetResult)
    (order : List Nat) : List Outcome :=
  order.map
    (worker_request (normTarget i) (normMethod i) (parse_headers rawHeaders)
      (coerceTimeout i.timeout) net)

/-- The summary dict `IntruderTest.run` builds after the pool drains. -/
def intruderSummary (i : IntruderInputs) (rawHeaders : Str) (net : Nat → NetResult)
    (order : List Nat) (wall : ℚ) : RunSummary :=
  let c := collect (runCollected i rawHeaders net order)
  let results := c.1
  let status_counter := c.2.1
  let errors := c.2.2.1
  let latencies := c.2.2.2
  let successes := results.countP (fun r => r.ok)
  let failures := results.countP (fun r => !r.ok)
  let lat_sorted := sortRat latencies
  { target := normTarget i
    method := normMethod i
    total_requested := coerceCount i.total
    concurrency := coerceCount i.concurrency
    timeout_seconds := coerceTimeout i.timeout
    wall_time_seconds := round4 wall
    requests_sent := results.length
    successes := successes
    failures := failures
    errors := errors
    status_counts := status_counter
    avg_latency_seconds := if latencies = [] then none else some (round4 (pyMean latencies))
    p50_latency_seconds := if latencies = [] then none else some (round4 (pyMedian latencies))
    p95_latency_seconds :=
      if latencies = [] then none
      else some (round4 (lat_sorted.getD (idx95 lat_sorted.length) 0))
    details_sample := results.take 100 }

/-- What `IntruderTest.run` returns: the early error dict for a missing
target, or a Run Summary. -/
inductive RunResult where
  | error (d : Dict)
  | summary (s : RunSummary)

/-- `IntruderTest.run`: normalise the inputs, reject an empty target with an
error dict, otherwise parse the pasted headers, drain the worker pool and
return the summary. `net` is the network oracle (one result per request
index), `order` the completion order, `wall` the wall-clock reading. -/
def IntruderRun (i : IntruderInputs) (rawHeaders : Str) (net : Nat → NetResult)
    (order : List Nat) (wall : ℚ) : RunResult :=
  if normTarget i = [] then
    .error [(str "error", .s (str "target (URL) nao informado."))]
  else
    .summary (intruderSummary i rawHeaders net order wall)

/-! ### Runner lemmas -/

theorem foldl_collectStep_fst (outs : List Outcome) (acc : CollectState) :
    (outs.foldl collectStep acc).1 = acc.1 ++ outs := by
  induction outs generalizing acc with
  | nil => simp
  | cons o rest ih =>
    rw [List.foldl_cons, ih]
    simp [collectStep]

theorem collect_fst (outs : List Outcome) : (collect outs).1 = outs := by
  rw [collect, foldl_collectStep_fst]
  simp

theorem foldl_collectStep_errors (outs : List Outcome) (acc : CollectState) :
    (outs.foldl collectStep acc).2.2.1 = acc.2.2.1 + outs.countP (fun o => !o.ok) := by
  induction outs generalizing acc with
  | nil => simp
  | cons o rest ih =>
    rw [List.foldl_cons, ih]
    by_cases h : o.ok <;> simp [collectStep, List.countP_cons, h] <;> omega

theorem collect_errors (outs : List Outcome) :
    (collect outs).2.2.1 = outs.countP (fun o => !o.ok) := by
  rw [collect, foldl_collectStep_errors]
  simp

theorem worker_request_index (u m : Str) (hs : HeaderDict) (t : ℚ)
    (net : Nat → NetResult) (i : Nat) :
    (worker_request u m hs t net i).index = i := by
  cases hr : net i <;> simp [worker_request, hr]

theorem runCollected_map_index (i : IntruderInputs) (rawHeaders : Str)
    (net : Nat → NetResult) (order : List Nat) :
    (runCollected i rawHeaders net order).map Outcome.index = order := by
  unfold runCollected
  rw [List.map_map]
  have h : (Outcome.index ∘
      worker_request (normTarget i) (normMethod i) (parse_headers rawHeaders)
        (coerceTimeout i.timeout) net) = id := by
    funext x
    simp [Function.comp, worker_request_index]
  rw [h, List.map_id]

theorem countP_ok_add_countP_not_ok (l : List Outcome) :
    l.countP (fun r => r.ok) + l.countP (fun r => !r.ok) = l.length := by
  induction l with
  | nil => simp
  | cons o rest ih =>
    by_cases h : o.ok <;> simp [List.countP_cons, h] <;> omega

theorem intruderRun_summary_eq (i : IntruderInputs) (rawHeaders : Str)
    (net : Nat → NetResult) (order : List Nat) (wall : ℚ) (s : RunSummary)
    (hrun : IntruderRun i rawHeaders net order wall = .summary s) :
    s = intruderSummary i rawHeaders net order wall := by
  unfold IntruderRun at hrun
  split at hrun
  · cases hrun
  · cases hrun
    rfl

/-! ### Claim theorems for the Runner -/

/-- C1: for every non-empty target, any method, and coerced `total >= 1`
and `concurrency >= 1`, a run of the Runner (over any completion order of
the submitted batch) collects exactly `total` outcomes, the multiset of
their `index` fields is exactly `{0, ..., total-1}` with each index
occurring once, and the returned summary counts them all as sent. -/
theorem intruder_run_index_coverage (i : IntruderInputs) (rawHeaders : Str)
    (net : Nat → NetResult) (order : List Nat) (wall : ℚ) (s : RunSummary)
    (hrun : IntruderRun i rawHeaders net order wall = .summary s)
    (hperm : order.Perm (List.range (coerceCount i.total))) :
    (runCollected i rawHeaders net order).length = coerceCount i.total ∧
    ((runCollected i rawHeaders net order).map Outcome.index).Perm
      (List.range (coerceCount i.total)) ∧
    s.requests_sent = coerceCount i.total := by
  have hlen : (runCollected i rawHeaders net order).length = coerceCount i.total := by
    unfold runCollected
    rw [List.length_map]
    simpa using hperm.length_eq
  have hmap := runCollected_map_index i rawHeaders net order
  have hs := intruderRun_summary_eq i rawHeaders net order wall s hrun
  refine ⟨hlen, ?_, ?_⟩
  · rw [hmap]
    exact hperm
  · rw [hs]
    show (collect (runCollected i rawHeaders net order)).1.length = _
    rw [collect_fst]
    exact hlen

/-- C2: in every Run Summary the Runner returns,
`successes + failures = requests_sent`, `requests_sent` is the number of
collected outcomes, and `requests_sent <= total_requested`. -/
theorem intruder_summary_count_invariant (i : IntruderInputs) (rawHeaders : Str)
    (net : Nat → NetResult) (order : List Nat) (wall : ℚ) (s : RunSummary)
    (hrun : IntruderRun i rawHeaders net order wall = .summary s)
    (hperm : order.Perm (List.range (coerceCount i.total))) :
    s.successes + s.failures = s.requests_sent ∧
    s.requests_sent = (runCollected i rawHeaders net order).length ∧
    s.requests_sent ≤ s.total_requested := by
  have hs := intruderRun_summary_eq i rawHeaders net order wall s hrun
  have hlen : (runCollected i rawHeaders net order).length = coerceCount i.total := by
    unfold runCollected
    rw [List.length_map]
    simpa using hperm.length_eq
  have hsent : s.requests_sent = (runCollected i rawHeaders net order).length := by
    rw [hs]
    show (collect (runCollected i rawHeaders net order)).1.length = _
    rw [collect_fst]
  refine ⟨?_, hsent, ?_⟩
  · rw [hs]
    show (collect _).1.countP _ + (collect _).1.countP _ = (collect _).1.length
    exact countP_ok_add_countP_not_ok _
  · have htot : s.total_requested = coerceCount i.total := by
      rw [hs]
      rfl
    rw [hsent, hlen, htot]

/-- C10: in every Run Summary the Runner returns, the `errors` counter —
incremented exactly once per completed outcome whose success flag is false —
equals the `failures` count computed over the same collected outcomes. -/
theorem intruder_errors_eq_failures (i : IntruderInputs) (rawHeaders : Str)
    (net : Nat → NetResult) (order : List Nat) (wall : ℚ) (s : RunSummary)
    (hrun : IntruderRun i rawHeaders net order wall = .summary s) :
    s.errors = s.failures := by
  have hs := intruderRun_summary_eq i rawHeaders net order wall s hrun
  rw [hs]
  show (collect (runCollected i rawHeaders net order)).2.2.1
      = (collect (runCollected i rawHeaders net order)).1.countP (fun r => !r.ok)
  rw [collect_errors, collect_fst]

/-- Concrete operator inputs for the Runner witnesses: target set,
`total = "3"`, `concurrency = "2"`, method and timeout left blank. -/
def wIn : IntruderInputs :=
  { target := some (str "http://example.invalid/")
    method := none
    total := some (str "3")
    concurrency := some (str "2")
    timeout := none }

/-- A network oracle where every request fails (unreachable host). -/
def wNet : Nat → NetResult := fun _ => .failure (str "connection refused") 0

theorem intruder_run_index_coverage_witness :
    (runCollected wIn [] wNet [2, 0, 1]).length = coerceCount wIn.total ∧
    ((runCollected wIn [] wNet [2, 0, 1]).map Outcome.index).Perm
      (List.range (coerceCount wIn.total)) ∧
    (intruderSummary wIn [] wNet [2, 0, 1] 0).requests_sent = coerceCount wIn.total :=
  intruder_run_index_coverage wIn [] wNet [2, 0, 1] 0
    (intruderSummary wIn [] wNet [2, 0, 1] 0) rfl (by decide)

theorem intruder_summary_count_invariant_witness :
    (intruderSummary wIn [] wNet [2, 0, 1] 0).successes
        + (intruderSummary wIn [] wNet [2, 0, 1] 0).failures
      = (intruderSummary wIn [] wNet [2, 0, 1] 0).requests_sent ∧
    (intruderSummary wIn [] wNet [2, 0, 1] 0).requests_sent
      = (runCollected wIn [] wNet [2, 0, 1]).length ∧
    (intruderSummary wIn [] wNet [2, 0, 1] 0).requests_sent
      ≤ (intruderSummary wIn [] wNet [2, 0, 1] 0).total_requested :=
  intruder_summary_count_invariant wIn [] wNet [2, 0, 1] 0
    (intruderSummary wIn [] wNet [2, 0, 1] 0) rfl (by decide)

theorem intruder_errors_eq_failures_witness :
    (intruderSummary wIn [] wNet [2, 0, 1] 0).errors
      = (intruderSummary wIn [] wNet [2, 0, 1] 0).failures :=
  intruder_errors_eq_failures wIn [] wNet [2, 0, 1] 0
    (intruderSummary wIn [] wNet [2, 0, 1] 0) rfl

/-! ## `src/tests/cookie_verification.py`: the Cookie Attribute Analyzer -/

/-- Lookahead of the split heuristic in `_split_set_cookie_block`: does the
text start with a cookie-name token (`[A-Za-z0-9_-]+`) directly followed by
`=` (the regex `, (?=[A-Za-z0-9_\-]+\=)`)? -/
def nameEqAhead (cs : Str) : Bool :=
  let run := cs.takeWhile (fun c => c.isAlphanum || c = '_' || c = '-')
  run ≠ [] && (cs.drop run.length).headD ' ' = '='

/-- Scanner for the heuristic split: cut at every `", "` whose right context
satisfies `nameEqAhead`; a non-matching `", "` is scanned past one character
at a time, as `re.split` does. -/
def splitHeurGo : Str → Str → List Str
  | [], acc => [acc.reverse]
  | ',' :: ' ' :: rest, acc =>
    if nameEqAhead rest then acc.reverse :: splitHeurGo rest []
    else splitHeurGo (' ' :: rest) (',' :: acc)
  | d :: rest, acc => splitHeurGo rest (d :: acc)

/-- `_split_set_cookie_block`: break a possibly concatenated `Set-Cookie`
block into individual cookie strings — by non-blank lines when the raw text
spans several of them, otherwise by the comma heuristic, stripping the
pieces and dropping empty ones. -/
def split_set_cookie_block (raw : Str) : List Str :=
  if raw = [] then []
  else
    let lineParts :=
      if raw.contains '\n' then (pySplitlines raw).filter (fun ln => strTrim ln ≠ [])
      else []
    if raw.contains '\n' ∧ lineParts.length > 1 then lineParts
    else ((splitHeurGo raw []).map strTrim).filter (fun p => p ≠ [])

/-- The flags sub-dict of a parsed cookie. -/
structure CookieFlags where
  secure : Bool
  httponly : Bool
  samesite : Option Str
deriving DecidableEq

/-- The dict `_parse_set_cookie` returns for one `Set-Cookie` value. -/
structure Cookie where
  raw : Str
  name : Str
  value : Str
  domain : Option Str
  path : Option Str
  expires : Option Str
  flags : CookieFlags
  attrs : List (Str × Str)
deriving DecidableEq

/-- One iteration of the attribute loop of `_parse_set_cookie` over the
`;`-separated segments after the first. -/
def cookieAttrStep (st : List (Str × Str) × CookieFlags) (attr : Str) :
    List (Str × Str) × CookieFlags :=
  if attr = [] then st
  else if attr.contains '=' then
    let kv := splitFirst '=' attr
    let k := strToLower (strTrim kv.1)
    let v := strTrim kv.2
    let attrs := alistSet st.1 k v
    if k = str "samesite" then (attrs, { st.2 with samesite := some v })
    else (attrs, st.2)
  else
    let token := strToLower (strTrim attr)
    if token = str "secure" then (st.1, { st.2 with secure := true })
    else if token = str "httponly" then (st.1, { st.2 with httponly := true })
    else st

/-- `_parse_set_cookie`: split one `Set-Cookie` value on `;`, read
`name=value` from the first segment, fold the remaining segments into
attributes and flags, then project domain/path/expires. -/
def parse_set_cookie (header_value : Str) : Cookie :=
  let parts := (splitOnChar ';' header_value).map strTrim
  let first := parts.headD []
  let nv :=
    if first.contains '=' then
      let p := splitFirst '=' first
      (strTrim p.1, strTrim p.2)
    else (strTrim first, ([] : Str))
  let st := parts.tail.foldl cookieAttrStep
    ([], { secure := false, httponly := false, samesite := none })
  { raw := header_value
    name := nv.1
    value := nv.2
    domain := alistGet st.1 (str "domain")
    path := alistGet st.1 (str "path")
    expires := alistGet st.1 (str "expires")
    flags := st.2
    attrs := st.1 }

/-- The missing-attribute list built for a cookie that is not excluded:
`Secure`, `HttpOnly`, then `SameSite` (missing when its flag is null). -/
def missingFlags (c : Cookie) : List Str :=
  (if c.flags.secure then [] else [str "Secure"])
    ++ (if c.flags.httponly then [] else [str "HttpOnly"])
    ++ (if c.flags.samesite.isSome then [] else [str "SameSite"])

/-- The warning line `f"Cookie '{name}' missing flags: {', '.join(missing)}"`. -/
def warnMsg (name : Str) (missing : List Str) : Str :=
  str "Cookie \x27" ++ name ++ str "\x27 missing flags: " ++ strJoin (str ", ") missing

/-- The warnings loop of `CookieVerificationTest.run` over the parsed
cookies: a cookie whose lowercased name is in the exclusion list gets an
empty `missing` list; a non-empty `missing` list appends one warning. -/
def cookieWarnings (excludeLower : List Str) (parsed : List Cookie) : List Str :=
  parsed.foldl
    (fun warnings cookie =>
      let lname := strToLower cookie.name
      let missing := if excludeLower.contains lname then [] else missingFlags cookie
      if missing = [] then warnings else warnings ++ [warnMsg cookie.name missing])
    []

/-- The response the single HTTP request of the Analyzer produced:
status code, the low-level multi-value `Set-Cookie` accessor when the
transport exposes one (`r.raw.headers.get_all`), and the case-insensitive
header mapping `r.headers` as a key/value list. -/
structure HttpResp where
  status_code : Int
  rawGetAll : Option (List Str)
  headers : List (Str × Str)

/-- The three-stage `Set-Cookie` extraction of `CookieVerificationTest.run`:
the multi-value accessor if it yields anything, else the single
(possibly concatenated) mapped value run through the split heuristic, else
every header entry whose lowercased key is `set-cookie`. -/
def extractSetCookies (r : HttpResp) : List Str :=
  let sc1 : List Str :=
    match r.rawGetAll with
    | some got => if got ≠ [] then got else []
    | none => []
  let sc2 : List Str :=
    if sc1 = [] then
      match r.headers.find? (fun kv => strToLower kv.1 = str "set-cookie") with
      | some kv => if kv.2 ≠ [] then split_set_cookie_block kv.2 else []
      | none => []
    else sc1
  if sc2 = [] then
    (r.headers.filter (fun kv => strToLower kv.1 = str "set-cookie")).map Prod.snd
  else sc2

/-- The dict a parsed cookie becomes inside the result's `cookies` list. -/
def cookieToValue (c : Cookie) : Value :=
  .obj
    [(str "raw", .s c.raw),
     (str "name", .s c.name),
     (str "value", .s c.value),
     (str "domain", match c.domain with | some d => .s d | none => .null),
     (str "path", match c.path with | some p => .s p | none => .null),
     (str "expires", match c.expires with | some e => .s e | none => .null),
     (str "flags", .obj
       [(str "secure", .b c.flags.secure),
        (str "httponly", .b c.flags.httponly),
        (str "samesite", match c.flags.samesite with | some s => .s s | none => .null)]),
     (str "attrs", .obj (c.attrs.map (fun kv => (kv.1, .s kv.2))))]

/-- The operator's answers to the prompts of
`CookieVerificationTest.requires` (absent key = `None`). -/
structure AnalyzerInputs where
  target : Option Str
  method : Option Str
  timeout : Option Str
  exclude_list : Option Str

/-- `(inputs.get("target") or "").strip()` of the Analyzer. -/
def anaTarget (i : AnalyzerInputs) : Str := strTrim (pyOrStr i.target [])

/-- `(inputs.get("method") or "GET").strip().upper()` of the Analyzer. -/
def anaMethod (i : AnalyzerInputs) : Str :=
  strToUpper (strTrim (pyOrStr i.method (str "GET")))

/-- `float(inputs.get("timeout") or 5.0)` defaulting to 5.0 on a parse
failure (the Analyzer does not clamp non-positive values). -/
def anaTimeout (i : AnalyzerInputs) : ℚ :=
  match i.timeout with
  | none => 5
  | some s => if s = [] then 5 else (pyParseFloat s).getD 5

/-- The lowercased exclusion names: strip the raw input, split on `,`,
strip the pieces, drop empties, lowercase. -/
def anaExcludeLower (i : AnalyzerInputs) : List Str :=
  (((splitOnChar ',' (strTrim (pyOrStr i.exclude_list []))).map strTrim).filter
    (fun n => n ≠ [])).map strToLower

/-- `CookieVerificationTest._read_and_parse_headers` applied to the pasted
text: like the Runner's parser but a repeated key simply overwrites. -/
def read_and_parse_headers (raw : Str) : List (Str × Str) :=
  if raw = [] then []
  else
    (pySplitlines raw).foldl
      (fun headers line0 =>
        let line := strTrim line0
        if line = [] then headers
        else if isRequestLine line then headers
        else if ¬ line.contains ':' then headers
        else
          let kv := splitFirst ':' line
          alistSet headers (strTrim kv.1) (strTrimLeft kv.2))
      []

/-- `CookieVerificationTest.run`: validate the target, build the result
dict, perform the single request (`http` is its ambient outcome), and
either record the failure with a duration, or extract, parse and evaluate
the cookies. `dur` is the elapsed wall-clock time of the request. -/
def analyzerRun (i : AnalyzerInputs) (rawHeaderText : Str)
    (http : Except Str HttpResp) (dur : ℚ) : Dict :=
  if anaTarget i = [] then
    [(str "error", .s (str "target (URL) nao informado."))]
  else
    let headers := read_and_parse_headers rawHeaderText
    let result : Dict :=
      [(str "target", .s (anaTarget i)),
       (str "method", .s (anaMethod i)),
       (str "timeout_seconds", .q (anaTimeout i)),
       (str "raw_request_headers", .obj (headers.map (fun kv => (kv.1, .s kv.2)))),
       (str "raw_set_cookie_headers", .arr []),
       (str "cookies", .arr []),
       (str "warnings", .arr [])]
    match http with
    | .error e =>
      alistSet (alistSet result (str "error") (.s (str "Request failed: " ++ e)))
        (str "duration_seconds") (.q (round4 dur))
    | .ok r =>
      let sc_list := extractSetCookies r
      let result := alistSet result (str "raw_set_cookie_headers")
        (.arr (sc_list.map .s))
      let parsed := sc_list.map parse_set_cookie
      let warnings := cookieWarnings (anaExcludeLower i) parsed
      let result := alistSet result (str "cookies") (.arr (parsed.map cookieToValue))
      let result := alistSet result (str "warnings") (.arr (warnings.map .s))
      let result := alistSet result (str "status_code") (.i r.status_code)
      alistSet result (str "duration_seconds") (.q (round4 dur))

/-! ### Analyzer lemmas and claim theorems -/

/-- The contribution of one cookie to the warnings list, as an `Option`. -/
def warnOf (excludeLower : List Str) (c : Cookie) : Option Str :=
  let missing :=
    if excludeLower.contains (strToLower c.name) then [] else missingFlags c
  if missing = [] then none else some (warnMsg c.name missing)

theorem foldl_warn_eq_filterMap (eL : List Str) (l : List Cookie) (acc : List Str) :
    l.foldl
      (fun warnings cookie =>
        let lname := strToLower cookie.name
        let missing := if eL.contains lname then [] else missingFlags cookie
        if missing = [] then warnings else warnings ++ [warnMsg cookie.name missing])
      acc
    = acc ++ l.filterMap (warnOf eL) := by
  induction l generalizing acc with
  | nil => simp
  | cons c rest ih =>
    rw [List.foldl_cons, ih, List.filterMap_cons]
    by_cases hex : strToLower c.name ∈ eL
    · simp [warnOf, hex]
    · by_cases hm : missingFlags c = []
      · simp [warnOf, hex, hm]
      · simp [warnOf, hex, hm]

theorem cookieWarnings_eq_filterMap (eL : List Str) (l : List Cookie) :
    cookieWarnings eL l = l.filterMap (warnOf eL) := by
  rw [cookieWarnings, foldl_warn_eq_filterMap]
  simp

/-- C3: over any exclusion list and any surrounding cookies, a cookie whose
name is on the (case-insensitively compared) exclusion list contributes no
warning; one that is not excluded and misses some of Secure/HttpOnly/
SameSite contributes exactly one warning naming it and listing all its
missing attributes joined by `", "`; and a non-excluded cookie missing all
three yields the single warning listing all three. -/
theorem cookie_warning_policy (excl : List Str) (l1 l2 : List Cookie) (c : Cookie) :
    cookieWarnings (excl.map strToLower) (l1 ++ c :: l2)
      = cookieWarnings (excl.map strToLower) l1
        ++ (if (excl.map strToLower).contains (strToLower c.name) then []
            else if missingFlags c = [] then []
            else [warnMsg c.name (missingFlags c)])
        ++ cookieWarnings (excl.map strToLower) l2
    ∧ cookieWarnings []
        [{ c with flags := { secure := false, httponly := false, samesite := none } }]
      = [warnMsg c.name [str "Secure", str "HttpOnly", str "SameSite"]] := by
  constructor
  · rw [cookieWarnings_eq_filterMap, cookieWarnings_eq_filterMap,
      cookieWarnings_eq_filterMap, List.filterMap_append, List.filterMap_cons]
    by_cases hex : strToLower c.name ∈ excl.map strToLower
    · simp [warnOf, hex]
    · by_cases hm : missingFlags c = []
      · simp [warnOf, hex, hm]
      · simp [warnOf, hex, hm]
  · rfl

/-- C6: the `Set-Cookie` splitting heuristic does not cut at the comma
inside an `Expires` date — the canonical concatenated input yields exactly
its two cookies — while a `", "` followed by a `name=` token is cut. -/
theorem split_set_cookie_block_heuristic :
    split_set_cookie_block
        (str "Expires=Wed, 21 Oct 2020 07:28:00 GMT, SESSID=abc123")
      = [str "Expires=Wed, 21 Oct 2020 07:28:00 GMT", str "SESSID=abc123"]
    ∧ split_set_cookie_block (str "A=1, B=2") = [str "A=1", str "B=2"] := by
  constructor
  · decide
  · decide

/-- C7: when the Analyzer's single HTTP request fails, its run returns (it
does not raise) a result dict carrying an `error` field and a
`duration_seconds` field, with `cookies` and `warnings` both empty lists. -/
theorem analyzer_error_result (i : AnalyzerInputs) (rawH : Str) (e : Str) (dur : ℚ)
    (hT : anaTarget i ≠ []) :
    (alistGet (analyzerRun i rawH (.error e) dur) (str "error")).isSome = true ∧
    (alistGet (analyzerRun i rawH (.error e) dur) (str "duration_seconds")).isSome = true ∧
    alistGet (analyzerRun i rawH (.error e) dur) (str "cookies") = some (.arr []) ∧
    alistGet (analyzerRun i rawH (.error e) dur) (str "warnings") = some (.arr []) := by
  unfold analyzerRun
  rw [if_neg hT]
  exact ⟨rfl, rfl, rfl, rfl⟩

/-- Concrete Analyzer inputs for the witness. -/
def wAna : AnalyzerInputs :=
  { target := some (str "https://example.com/")
    method := none
    timeout := none
    exclude_list := none }

theorem analyzer_error_result_witness :
    (alistGet (analyzerRun wAna [] (.error (str "timeout")) 0) (str "error")).isSome = true ∧
    (alistGet (analyzerRun wAna [] (.error (str "timeout")) 0)
      (str "duration_seconds")).isSome = true ∧
    alistGet (analyzerRun wAna [] (.error (str "timeout")) 0) (str "cookies")
      = some (.arr []) ∧
    alistGet (analyzerRun wAna [] (.error (str "timeout")) 0) (str "warnings")
      = some (.arr []) :=
  analyzer_error_result wAna [] (str "timeout") 0 (by decide)

/-! ## `src/utils/results.py`: persistence and enrichment -/

/-- `json.dumps(v, ensure_ascii=False, default=str)` restricted to the
shapes the probes produce (string escaping elided: the claims never inspect
the serialised text, only which values are serialised as structured text). -/
def jsonDumps : Value → Str
  | .null => str "null"
  | .b x => if x then str "true" else str "false"
  | .i n => str (toString n)
  | .q x => str (toString x)
  | .s x => '"' :: x ++ ['"']
  | .arr xs =>
    '[' :: (strJoin (str ", ") (xs.attach.map (fun y => jsonDumps y.1))) ++ [']']
  | .obj xs =>
    '\x7b' :: (strJoin (str ", ")
      (xs.attach.map (fun y => ('"' :: y.1.1 ++ ['"', ':', ' ']) ++ jsonDumps y.1.2)))
      ++ ['\x7d']
termination_by v => sizeOf v
decreasing_by
  · have := List.sizeOf_lt_of_mem y.2
    simp only [Value.arr.sizeOf_spec]
    omega
  · obtain ⟨⟨a, b⟩, hy⟩ := y
    have h1 := List.sizeOf_lt_of_mem hy
    simp only [Prod.mk.sizeOf_spec] at h1
    simp only [Value.obj.sizeOf_spec]
    omega

/-- `_normalize_value`: `None` to the empty string, scalars through `str()`,
everything else through `json.dumps`. -/
def normalize_value : Value → Str
  | .null => []
  | .b x => if x then str "True" else str "False"
  | .i n => str (toString n)
  | .q x => str (toString x)
  | .s s => s
  | .arr xs => jsonDumps (.arr xs)
  | .obj xs => jsonDumps (.obj xs)

/-- The CSV row written for a result: its keys sorted lexicographically,
each value normalised (`result.get(k)` is `None` only for a key not
present, which cannot arise from the key list itself). -/
def csvRow (result : Dict) : List Str :=
  (pySorted (keysOf result)).map
    (fun k => normalize_value ((alistGet result k).getD .null))

/-- The results directory as a mapping from file name to the list of CSV
rows the file holds; a missing entry is a file that does not exist yet. -/
abbrev FileSys := List (Str × List (List Str))

/-- `save_result_csv`: resolve the file name (explicit, or
`<test_name>-<timestamp>.csv`), write a header row of the sorted keys when
the file does not exist yet, and append the data row. Returns the updated
directory and the path written. -/
def save_result_csv (fs : FileSys) (test_name : Str) (result : Dict) (ts : Str)
    (filename : Option Str) : FileSys × Str :=
  let fname := filename.getD (test_name ++ str "-" ++ ts ++ str ".csv")
  let keys := pySorted (keysOf result)
  let row := csvRow result
  match alistGet fs fname with
  | none => (alistSet fs fname [keys, row], fname)
  | some rows => (alistSet fs fname (rows ++ [row]), fname)

/-- `enrich_result`: copy the result and set `test_name`, the ISO timestamp
and the rounded duration. `now_iso` is the clock reading as text, `now` and
`start` the wall-clock readings the duration is computed from. -/
def enrich_result (test_name : Str) (result : Dict) (now_iso : Str)
    (now start : ℚ) : Dict :=
  let enriched := result
  let enriched := alistSet enriched (str "test_name") (.s test_name)
  let enriched := alistSet enriched (str "run_timestamp") (.s now_iso)
  alistSet enriched (str "duration_seconds") (.q (round3 (now - start)))

/-! ### Persistence claim theorems -/

/-- C8 counterexample: the default CSV file name embeds the save timestamp,
so two saves for the same probe name made at different timestamps create
two files, each with its own header row and a single data row — not one
file with one header row followed by two data rows. -/
theorem save_result_csv_claim_counterexample :
    (save_result_csv
        (save_result_csv [] (str "intruder") [(str "a", Value.s (str "x"))]
          (str "20250101_000000") none).1
        (str "intruder") [(str "a", Value.s (str "x"))]
        (str "20250101_000001") none).1
      = [(str "intruder-20250101_000000.csv", [[str "a"], [str "x"]]),
         (str "intruder-20250101_000001.csv", [[str "a"], [str "x"]])] := by
  decide

/-- C8 amended: when the two saves resolve to the same (not yet existing)
file — same probe name and same timestamp, default file name — and the
results have equal sorted key sets, one file results, holding one header
row of the first result's sorted keys followed by the two data rows, both
laid out in that same column order. -/
theorem save_result_csv_append (r1 r2 : Dict) (nm ts : Str)
    (hk : pySorted (keysOf r1) = pySorted (keysOf r2)) :
    (save_result_csv (save_result_csv [] nm r1 ts none).1 nm r2 ts none).1
      = [(nm ++ str "-" ++ ts ++ str ".csv",
          [pySorted (keysOf r1),
           (pySorted (keysOf r1)).map
             (fun k => normalize_value ((alistGet r1 k).getD .null)),
           (pySorted (keysOf r1)).map
             (fun k => normalize_value ((alistGet r2 k).getD .null))])]
    ∧ (save_result_csv (save_result_csv [] nm r1 ts none).1 nm r2 ts none).2
      = (save_result_csv [] nm r1 ts none).2 := by
  constructor
  · simp only [save_result_csv, csvRow, Option.getD, alistGet, alistSet]
    rw [hk]
    simp
  · simp only [save_result_csv, csvRow, Option.getD, alistGet, alistSet]
    simp

theorem save_result_csv_append_witness :
    (save_result_csv
        (save_result_csv [] (str "probe") [(str "a", Value.s (str "x"))]
          (str "20250101_000000") none).1
        (str "probe") [(str "a", Value.s (str "y"))]
        (str "20250101_000000") none).1
      = [(str "probe" ++ str "-" ++ str "20250101_000000" ++ str ".csv",
          [pySorted (keysOf [(str "a", Value.s (str "x"))]),
           (pySorted (keysOf [(str "a", Value.s (str "x"))])).map
             (fun k => normalize_value
               ((alistGet [(str "a", Value.s (str "x"))] k).getD .null)),
           (pySorted (keysOf [(str "a", Value.s (str "x"))])).map
             (fun k => normalize_value
               ((alistGet [(str "a", Value.s (str "y"))] k).getD .null))])]
    ∧ (save_result_csv
        (save_result_csv [] (str "probe") [(str "a", Value.s (str "x"))]
          (str "20250101_000000") none).1
        (str "probe") [(str "a", Value.s (str "y"))]
        (str "20250101_000000") none).2
      = (save_result_csv [] (str "probe") [(str "a", Value.s (str "x"))]
          (str "20250101_000000") none).2 :=
  save_result_csv_append [(str "a", Value.s (str "x"))]
    [(str "a", Value.s (str "y"))] (str "probe") (str "20250101_000000") (by decide)

/-- C9: enrichment returns the original mapping extended with exactly the
keys `test_name`, `run_timestamp` and `duration_seconds`: the key set grows
by exactly those three, and every lookup of any other key is unchanged (the
model is pure, so the original mapping itself is untouched). -/
theorem enrich_result_frame (tn : Str) (result : Dict) (iso : Str) (now st : ℚ) :
    (∀ k, k ∈ keysOf (enrich_result tn result iso now st)
        ↔ k ∈ keysOf result ∨ k = str "test_name" ∨ k = str "run_timestamp"
          ∨ k = str "duration_seconds")
    ∧ (∀ k, k ≠ str "test_name" → k ≠ str "run_timestamp" →
        k ≠ str "duration_seconds" →
        alistGet (enrich_result tn result iso now st) k = alistGet result k) := by
  constructor
  · intro k
    unfold enrich_result
    rw [mem_keysOf_alistSet, mem_keysOf_alistSet, mem_keysOf_alistSet]
    tauto
  · intro k h1 h2 h3
    unfold enrich_result
    rw [alistGet_alistSet_ne _ _ _ _ h3, alistGet_alistSet_ne _ _ _ _ h2,
      alistGet_alistSet_ne _ _ _ _ h1]

theorem enrich_result_frame_witness :
    alistGet (enrich_result (str "intruder") [(str "target", Value.null)]
        (str "2025-01-01T00:00:00") 1 0) (str "target")
      = alistGet [(str "target", Value.null)] (str "target") :=
  (enrich_result_frame (str "intruder") [(str "target", Value.null)]
      (str "2025-01-01T00:00:00") 1 0).2
    (str "target") (by decide) (by decide) (by decide)

/-! ## `src/main.py`: plugin discovery -/

/-- A constructed probe: its identifying surface (name, description). -/
structure Probe where
  name : Str
  description : Str
deriving DecidableEq

/-- The module-level `test` attribute, when present: either a `BaseTest`
instance or some other value. -/
inductive TestAttr where
  | base (p : Probe)
  | notBase

/-- A `BaseTest` subclass found by the member scan: constructing it either
yields an instance or raises. -/
inductive ClassCandidate where
  | ctor (p : Probe)
  | ctorFail (msg : Str)

/-- One module name yielded by `pkgutil.iter_modules` over `src/tests/`:
importing it either raises, or yields a module with an optional `test`
attribute and a list of constructible candidate classes. -/
inductive ModuleCandidate where
  | importFail (modName : Str) (msg : Str)
  | loaded (modName : Str) (testAttr : Option TestAttr)
      (classes : List ClassCandidate)

/-- The module's name as iterated. -/
def moduleName : ModuleCandidate → Str
  | .importFail n _ => n
  | .loaded n _ _ => n

/-- `discover_tests`: skip `_`-prefixed names, skip (after logging) a module
whose import raises, take the module-level `test` attribute when it is a
`BaseTest` instance, otherwise construct every candidate class, skipping
(after logging) any whose constructor raises. -/
def discover_tests (mods : List ModuleCandidate) : List Probe :=
  mods.foldl
    (fun tests m =>
      if (moduleName m).head? = some '_' then tests
      else
        match m with
        | .importFail _ _ => tests
        | .loaded _ testAttr classes =>
          match testAttr with
          | some (.base p) => tests ++ [p]
          | _ =>
            classes.foldl
              (fun acc cc =>
                match cc with
                | .ctor p => acc ++ [p]
                | .ctorFail _ => acc)
              tests)
    []

/-- The probes one candidate module successfully contributes, as the claim
describes them: none for a failed import, the `test` instance when it is
one, else every successfully constructed candidate class. -/
def moduleProbes (m : ModuleCandidate) : List Probe :=
  if (moduleName m).head? = some '_' then []
  else
    match m with
    | .importFail _ _ => []
    | .loaded _ testAttr classes =>
      match testAttr with
      | some (.base p) => [p]
      | _ =>
        classes.filterMap
          (fun cc =>
            match cc with
            | .ctor p => some p
            | .ctorFail _ => none)

theorem foldl_classes_eq (classes : List ClassCandidate) (acc : List Probe) :
    classes.foldl
      (fun acc cc =>
        match cc with
        | .ctor p => acc ++ [p]
        | .ctorFail _ => acc)
      acc
    = acc ++ classes.filterMap
        (fun cc =>
          match cc with
          | .ctor p => some p
          | .ctorFail _ => none) := by
  induction classes generalizing acc with
  | nil => simp
  | cons cc rest ih =>
    cases cc with
    | ctor p => simp [ih]
    | ctorFail msg => simp [ih]

theorem foldl_discover_eq (mods : List ModuleCandidate) (acc : List Probe) :
    mods.foldl
      (fun tests m =>
        if (moduleName m).head? = some '_' then tests
        else
          match m with
          | .importFail _ _ => tests
          | .loaded _ testAttr classes =>
            match testAttr with
            | some (.base p) => tests ++ [p]
            | _ =>
              classes.foldl
                (fun acc cc =>
                  match cc with
                  | .ctor p => acc ++ [p]
                  | .ctorFail _ => acc)
                tests)
      acc
    = acc ++ mods.flatMap moduleProbes := by
  induction mods generalizing acc with
  | nil => simp
  | cons m rest ih =>
    rw [List.foldl_cons, ih, List.flatMap_cons]
    by_cases hu : (moduleName m).head? = some '_'
    · simp [moduleProbes, hu]
    · cases m with
      | importFail n msg => simp [moduleProbes, hu]
      | loaded n testAttr classes =>
        match testAttr with
        | some (.base p) => simp [moduleProbes, hu]
        | some .notBase => simp [moduleProbes, hu, foldl_classes_eq]
        | none => simp [moduleProbes, hu, foldl_classes_eq]

/-- C4: discovery is total (the model returns for every candidate list) and
returns exactly the successfully constructed probes: an import failure or a
constructor failure contributes nothing while scanning continues over the
remaining candidates, and an empty result list is a valid outcome. -/
theorem discover_tests_spec (mods : List ModuleCandidate) :
    discover_tests mods = mods.flatMap moduleProbes := by
  rw [discover_tests, foldl_discover_eq]
  simp

/-! ### C5: header parsing against the specified rule -/

/-- The request-line discard rule exactly as the claim words it: first
whitespace-token an HTTP method name, last token containing `HTTP/` —
with no condition on the token count. -/
def isRequestLineClaim (line : Str) : Bool :=
  let parts0 := splitWs line
  httpMethodTokens.contains (strToUpper (parts0.headD []))
    && strContainsSub (str "HTTP/") (strToUpper (parts0.getLastD []))

/-- The header parser exactly as the claim words it: discard per
`isRequestLineClaim` or a missing colon, otherwise contribute
stripped-key/left-stripped-value, merging a recurring `Cookie` key with
`"; "` (plain concatenation) and any other recurring key with `", "`. -/
def parse_headers_claim (raw : Str) : HeaderDict :=
  if raw = [] then []
  else
    (pySplitlines raw).foldl
      (fun headers line0 =>
        let line := strTrim line0
        if line = [] then headers
        else if isRequestLineClaim line then headers
        else if ¬ line.contains ':' then headers
        else
          let kv := splitFirst ':' line
          let key := strTrim kv.1
          let value := strTrimLeft kv.2
          match alistGet headers key with
          | some old =>
            if strToLower key = str "cookie" then
              alistSet headers key (old ++ str "; " ++ value)
            else
              alistSet headers key (old ++ str ", " ++ value)
          | none => headers ++ [(key, value)])
      []

/-- C5 counterexample: on `"Cookie: a;\nCookie: b\nGET x:HTTP/1.1"` the
code strips the trailing `;` before merging the repeated `Cookie` value
(giving `a; b`, not the claimed `a;; b`) and keeps the two-token line
`GET x:HTTP/1.1` as a header (the request-line discard also requires at
least three tokens), so the parser disagrees with the claimed rule. -/
theorem parse_headers_claim_counterexample :
    parse_headers (str "Cookie: a;\nCookie: b\nGET x:HTTP/1.1")
      = [(str "Cookie", str "a; b"), (str "GET x", str "HTTP/1.1")]
    ∧ parse_headers_claim (str "Cookie: a;\nCookie: b\nGET x:HTTP/1.1")
      = [(str "Cookie", str "a;; b")]
    ∧ parse_headers (str "Cookie: a;\nCookie: b\nGET x:HTTP/1.1")
      ≠ parse_headers_claim (str "Cookie: a;\nCookie: b\nGET x:HTTP/1.1") := by
  refine ⟨by decide, by decide, by decide⟩

/-- A parsed header line, classified: dropped, or a key/value contribution. -/
inductive HeaderLine where
  | drop
  | entry (k v : Str)

/-- Line classification following the amended wording: a line of at least
three whitespace tokens starting with a method name and ending in a token
containing `HTTP/` is dropped, as is a colon-free line; any other line
contributes its stripped key and left-stripped value. -/
def classifyHeaderLine (line0 : Str) : HeaderLine :=
  let line := strTrim line0
  if line = [] then .drop
  else
    let parts0 := splitWs line
    if 3 ≤ parts0.length
        ∧ httpMethodTokens.contains (strToUpper (parts0.headD [])) = true
        ∧ strContainsSub (str "HTTP/") (strToUpper (parts0.getLastD [])) = true then
      .drop
    else if line.contains ':' then
      let kv := splitFirst ':' line
      .entry (strTrim kv.1) (strTrimLeft kv.2)
    else .drop

/-- Merging one contribution into the accumulated headers, following the
amended wording: a fresh key is appended; a recurring key whose lowercase
form is `cookie` has the stored value stripped of trailing `;`/space
characters and extended with `"; "` plus the new value; any other
recurring key is extended with `", "` plus the new value. -/
def mergeHeaderEntry (headers : HeaderDict) (k v : Str) : HeaderDict :=
  match alistGet headers k with
  | none => headers ++ [(k, v)]
  | some old =>
    if strToLower k = str "cookie" then
      alistSet headers k (strRStripSet [';', ' '] old ++ str "; " ++ v)
    else alistSet headers k (old ++ str ", " ++ v)

/-- The header parser as the amended claim describes it: classify each
line, then fold the contributions with `mergeHeaderEntry`. -/
def parse_headers_amended (raw : Str) : HeaderDict :=
  if raw = [] then []
  else
    (pySplitlines raw).foldl
      (fun headers ln =>
        match classifyHeaderLine ln with
        | .drop => headers
        | .entry k v => mergeHeaderEntry headers k v)
      []

theorem headerStep_eq_classify (headers : HeaderDict) (ln : Str) :
    headerStep headers ln
      = match classifyHeaderLine ln with
        | .drop => headers
        | .entry k v => mergeHeaderEntry headers k v := by
  unfold headerStep classifyHeaderLine mergeHeaderEntry
  by_cases h0 : strTrim ln = []
  · simp [h0]
  · simp only [if_neg h0]
    have hreq : isRequestLine (strTrim ln) = true
        ↔ (3 ≤ (splitWs (strTrim ln)).length
            ∧ httpMethodTokens.contains (strToUpper ((splitWs (strTrim ln)).headD [])) = true
            ∧ strContainsSub (str "HTTP/")
                (strToUpper ((splitWs (strTrim ln)).getLastD [])) = true) := by
      simp [isRequestLine, Bool.and_eq_true, decide_eq_true_eq, and_assoc]
    by_cases hr : isRequestLine (strTrim ln)
    · rw [if_pos hr, if_pos (hreq.mp hr)]
    · rw [if_neg hr, if_neg (fun hcc => hr (hreq.mpr hcc))]
      by_cases hc : (strTrim ln).contains ':' = true
      · rw [if_neg (not_not_intro hc), if_pos hc]
        cases hget : alistGet headers (strTrim (splitFirst ':' (strTrim ln)).1) <;>
          simp [hget]
      · rw [if_pos hc, if_neg hc]

/-- C5 amended: the header parser behaves exactly as the corrected rule
says, line by line — classification per `classifyHeaderLine` (request-line
discard requiring at least three tokens) and merging per
`mergeHeaderEntry` (`Cookie` values stripped of trailing `;`/space before
`"; "` is appended). -/
theorem parse_headers_amended_correct (raw : Str) :
    parse_headers raw = parse_headers_amended raw := by
  unfold parse_headers parse_headers_amended
  by_cases h : raw = []
  · simp [h]
  · simp only [h, if_false]
    congr 1
    funext headers ln
    exact headerStep_eq_classify headers ln
